import Mathlib

/-!
Shallow embedding of the snake-game simulation core (`src/lib.rs`):
cell grid, `Snake`, `FpsCounter`, `Universe` and its `tick` transition.

Modelling conventions:
* `u32` values are modelled as `Nat`, `i32`/`i64` values as `Int`; the only
  place a machine-width wrap can occur on the data handled by the claims is
  the `as u32` cast of `random_position`, which is modelled explicitly with
  `% 2 ^ 32`.  (`row * width + column` in `get_index` and
  `p.y * universe_width + p.x` in `has_index` cannot overflow `u32` for the
  64 × 64 boards and small coordinates every claim is about.)
* `f64` values (fps target, elapsed seconds, the `Math.random()` samples)
  are modelled as exact rationals `ℚ`.
* The environment's wall clock is passed to `tick` as the parameter `now`
  (the value `Instant::now()` would return, in seconds), and the stream of
  `Math.random()` samples is passed as a list of pairs `rand`; each call of
  `randomize_apple` consumes one pair.  The JS environment guarantees each
  sample lies in `[0, 1)`; theorems that need this state it as a hypothesis.
* Rust panics (`unwrap` on an empty body, out-of-bounds `Vec` indexing) and
  non-termination of the unbounded recursion in `randomize_apple` (when the
  finite list of supplied samples runs out) are both modelled as `none`.
-/

/-- Cell state of one grid square, `enum Cell { Alive, Dead }`. -/
inductive Cell where
  | Alive
  | Dead
deriving DecidableEq

/-- Symbolic direction, `enum DirectionName { Up, Down, Left, Right }`. -/
inductive DirectionName where
  | Up
  | Down
  | Left
  | Right
deriving DecidableEq

/-- Grid position, `struct Position { x: u32, y: u32 }`. -/
structure Position where
  x : Nat
  y : Nat
deriving DecidableEq

/-- Velocity vector, `struct Direction { vx: i32, vy: i32 }`. -/
structure Direction where
  vx : Int
  vy : Int
deriving DecidableEq

/-- `struct Snake { body: Vec<Position>, direction: Direction }`. -/
structure Snake where
  body : List Position
  direction : Direction
deriving DecidableEq

/-- `Snake::new`: fixed 4-segment body at y = 6, moving rightward. -/
def Snake.new : Snake :=
  { body := [⟨5, 6⟩, ⟨4, 6⟩, ⟨3, 6⟩, ⟨2, 6⟩]
    direction := ⟨1, 0⟩ }

/-- `Snake::set_direction`. -/
def Snake.set_direction (s : Snake) (vx vy : Int) : Snake :=
  { s with direction := ⟨vx, vy⟩ }

/-- `Snake::set_direction_name`: maps a symbolic direction to a velocity. -/
def Snake.set_direction_name (s : Snake) (d : DirectionName) : Snake :=
  match d with
  | .Up => s.set_direction 0 (-1)
  | .Down => s.set_direction 0 1
  | .Left => s.set_direction (-1) 0
  | .Right => s.set_direction 1 0

/-- `Snake::has_index`: whether some body segment has the given flattened
row-major index. -/
def Snake.has_index (s : Snake) (index : Nat) (universe_width : Nat) : Bool :=
  s.body.any (fun p => p.y * universe_width + p.x == index)

/-- `enum UniverseTopology { Flat, Toroidal }`. -/
inductive UniverseTopology where
  | Flat
  | Toroidal
deriving DecidableEq

/-- `const AVG_LEARNING_RATE: f64 = 0.01`. -/
def AVG_LEARNING_RATE : ℚ := 1 / 100

/-- `struct FpsCounter { last_frame: Instant, frames: u32, fps: f64 }`.
The timestamp is a rational number of seconds. -/
structure FpsCounter where
  last_frame : ℚ
  frames : Nat
  fps : ℚ
deriving DecidableEq

/-- `FpsCounter::new`: seeds `fps` with the target and records the current
time `now`. -/
def FpsCounter.new (fps_target : ℚ) (now : ℚ) : FpsCounter :=
  { last_frame := now, frames := 0, fps := fps_target }

/-- `FpsCounter::tick`: computes the elapsed seconds since the previous
call, updates the exponential moving average unless this is the first call
(`frames == 0`), records the timestamp and increments the call counter. -/
def FpsCounter.tick (c : FpsCounter) (fps_measurements : Nat) (now : ℚ) : FpsCounter :=
  let elapsed : ℚ := now - c.last_frame
  { last_frame := now
    frames := c.frames + 1
    fps :=
      if c.frames ≠ 0 then
        c.fps * (1 - AVG_LEARNING_RATE) + ((fps_measurements : ℚ) / elapsed) * AVG_LEARNING_RATE
      else
        c.fps }

/-- `struct Universe`. -/
structure Universe where
  width : Nat
  height : Nat
  cells : List Cell
  snake : Snake
  apple : Option Position
  game_over : Bool
  topology : UniverseTopology
  counter : FpsCounter
deriving DecidableEq

/-- `random_position(max)`: `(random() * (max as f64)).floor() as i32`,
applied to one environment sample `r`.  (The saturating `f64`-to-`i32`
cast cannot saturate for the sample range `[0, 1)` and the board sizes
involved, so it is not modelled.) -/
def random_position (r : ℚ) (max : Int) : Int :=
  Int.floor (r * (max : ℚ))

/-- `Universe::add_u32_i32`: `(u as i64 + i as i64).rem_euclid(modulo as i64) as u32`.
The result of `rem_euclid` with a `u32` modulus is in `[0, modulo)`, so the
final `as u32` cast is exact. -/
def Universe.add_u32_i32 (_u : Universe) (x : Nat) (i : Int) (modulo : Nat) : Nat :=
  (((x : Int) + i).emod (modulo : Int)).toNat

/-- `Universe::get_index`: row-major flattened index. -/
def Universe.get_index (u : Universe) (row : Nat) (column : Nat) : Nat :=
  row * u.width + column

/-- Bounds-checked update of the cell buffer: `cells[i] = c` panics when
`i` is out of range, modelled as `none`. -/
def setCell (cells : List Cell) (i : Nat) (c : Cell) : Option (List Cell) :=
  if i < cells.length then some (cells.set i c) else none

/-- `Universe::randomize_apple`, consuming one `(x, y)` sample pair per
call from the stream `rand`.  Each `u32` coordinate is the wrapping cast of
the `i32` returned by `random_position` (the `width`/`height` arguments fit
in `i32` for every universe the claims concern, so `try_into().unwrap()`
cannot panic and is not modelled).  Note that the source assigns
`self.apple` after the if/else, so a retry overwrites the recursive call's
recorded apple with the occupied position drawn by this call. -/
def Universe.randomize_apple (u : Universe) :
    List (ℚ × ℚ) → Option (Universe × List (ℚ × ℚ))
  | [] => none
  | (rx, ry) :: rest =>
    let apple_x : Nat := ((random_position rx (u.width : Int)).emod (2 ^ 32)).toNat
    let apple_y : Nat := ((random_position ry (u.height : Int)).emod (2 ^ 32)).toNat
    let apple_index := u.get_index apple_y apple_x
    match u.cells[apple_index]? with
    | none => none
    | some c =>
      if c = Cell.Dead then
        some ({ u with
                  cells := u.cells.set apple_index Cell.Alive
                  apple := some ⟨apple_x, apple_y⟩ }, rest)
      else
        match u.randomize_apple rest with
        | none => none
        | some (u', rest') =>
          some ({ u' with apple := some ⟨apple_x, apple_y⟩ }, rest')

/-- Candidate new head of `Universe::tick`, computed from the current head
according to the topology.  In the `Flat` case `none` means the coordinate
fell outside the board (the source then sets `game_over` and returns). -/
def Universe.candidate_head (u : Universe) (head : Position) : Option Position :=
  match u.topology with
  | .Flat =>
    let new_x : Int := (head.x : Int) + u.snake.direction.vx
    let new_y : Int := (head.y : Int) + u.snake.direction.vy
    if new_x < 0 ∨ new_y < 0 ∨ new_x ≥ (u.width : Int) ∨ new_y ≥ (u.height : Int) then
      none
    else
      some ⟨new_x.toNat, new_y.toNat⟩
  | .Toroidal =>
    some ⟨u.add_u32_i32 head.x u.snake.direction.vx u.width,
          u.add_u32_i32 head.y u.snake.direction.vy u.height⟩

/-- Final phase of `Universe::tick`: `if fps_measurements > 0`, advance the
frame-rate counter. -/
def Universe.tick_fps (u : Universe) (fps_measurements : Nat) (now : ℚ) : Universe :=
  if fps_measurements > 0 then
    { u with counter := u.counter.tick fps_measurements now }
  else
    u

/-- Tail phase of `Universe::tick` after the apple branch: insert the
candidate head at the front of the body, mark its cell alive in the next
buffer, commit the buffer, respawn an apple when none exists, and advance
the fps counter. -/
def Universe.tick_finish (u : Universe) (next : List Cell) (new_head : Position)
    (fps_measurements : Nat) (rand : List (ℚ × ℚ)) (now : ℚ) :
    Option (Universe × List (ℚ × ℚ)) :=
  match setCell next (u.get_index new_head.y new_head.x) Cell.Alive with
  | none => none
  | some next1 =>
    let u1 : Universe :=
      { u with
          snake := { u.snake with body := new_head :: u.snake.body }
          cells := next1 }
    match u1.apple with
    | some _ => some (u1.tick_fps fps_measurements now, rand)
    | none =>
      match u1.randomize_apple rand with
      | none => none
      | some (u2, rand2) => some (u2.tick_fps fps_measurements now, rand2)

/-- `Universe::tick`.  Returns the updated universe and the unconsumed
suffix of the random-sample stream; `none` models a panic or exhaustion of
the supplied samples inside the unbounded apple-respawn recursion. -/
def Universe.tick (u : Universe) (fps_measurements : Nat) (rand : List (ℚ × ℚ))
    (now : ℚ) : Option (Universe × List (ℚ × ℚ)) :=
  if u.game_over then
    some (u, rand)
  else
    match u.snake.body.head? with
    | none => none
    | some head =>
      match u.candidate_head head with
      | none => some ({ u with game_over := true }, rand)
      | some new_head =>
        if new_head ∈ u.snake.body then
          some ({ u with game_over := true }, rand)
        else
          let next := u.cells
          match u.apple with
          | some apple =>
            if new_head = apple then
              match u.randomize_apple rand with
              | none => none
              | some (u1, rand1) =>
                match u1.apple with
                | none => none
                | some apple1 =>
                  match setCell next (u1.get_index apple1.y apple1.x) Cell.Alive with
                  | none => none
                  | some next1 => u1.tick_finish next1 new_head fps_measurements rand1 now
            else
              match u.snake.body.getLast? with
              | none => none
              | some last =>
                match setCell next (u.get_index last.y last.x) Cell.Dead with
                | none => none
                | some next1 =>
                  Universe.tick_finish
                    { u with snake := { u.snake with body := u.snake.body.dropLast } }
                    next1 new_head fps_measurements rand now
          | none => u.tick_finish next new_head fps_measurements rand now

/-- `Universe::on_click`: forwards a direction change to the snake. -/
def Universe.on_click (u : Universe) (d : DirectionName) : Universe :=
  { u with snake := u.snake.set_direction_name d }

/-- `Universe::toggle_topology`. -/
def Universe.toggle_topology (u : Universe) : Universe :=
  { u with
      topology :=
        match u.topology with
        | .Flat => .Toroidal
        | .Toroidal => .Flat }

/-- `Universe::new`: 64 × 64 board whose cells are alive exactly at the
flattened indices of the given snake's body, no apple, running, toroidal. -/
def Universe.new (snake : Snake) (fps_target : ℚ) (now : ℚ) : Universe :=
  { width := 64
    height := 64
    cells := (List.range (64 * 64)).map
      (fun i => if snake.has_index i 64 then Cell.Alive else Cell.Dead)
    snake := snake
    apple := none
    game_over := false
    topology := .Toroidal
    counter := FpsCounter.new fps_target now }

/-- `Universe::is_game_over`. -/
def Universe.is_game_over (u : Universe) : Bool :=
  u.game_over

/-- `Universe::fps`. -/
def Universe.fps (u : Universe) : ℚ :=
  u.counter.fps

/-- A position whose coordinates lie on the board. -/
def Universe.pos_in_bounds (u : Universe) (p : Position) : Prop :=
  p.x < u.width ∧ p.y < u.height

/-- Structural well-formedness of a universe: the cell buffer has exactly
`width * height` entries, the dimensions are positive `u32` values, and
every snake segment and the apple (when present) lie on the board. -/
def Universe.wf (u : Universe) : Prop :=
  u.cells.length = u.width * u.height ∧
  0 < u.width ∧ 0 < u.height ∧
  u.width ≤ 2 ^ 32 ∧ u.height ≤ 2 ^ 32 ∧
  (∀ p ∈ u.snake.body, u.pos_in_bounds p) ∧
  (∀ a, u.apple = some a → u.pos_in_bounds a)

/-- The environment contract for the random stream: JS `Math.random()`
returns values in `[0, 1)`. -/
def rand_in_range (rand : List (ℚ × ℚ)) : Prop :=
  ∀ p ∈ rand, 0 ≤ p.1 ∧ p.1 < 1 ∧ 0 ≤ p.2 ∧ p.2 < 1

/-- Iterated `tick` calls, one `(fps_measurements, rand, now)` triple per
call. -/
def Universe.ticks (u : Universe) : List (Nat × List (ℚ × ℚ) × ℚ) → Option Universe
  | [] => some u
  | (k, rand, now) :: rest =>
    match u.tick k rand now with
    | none => none
    | some (u', _) => u'.ticks rest

/-- States reachable from `Universe::new(Snake::new(), ...)` through the
public mutators, under the environment contract that every random sample
supplied to a tick lies in `[0, 1)`. -/
inductive Reachable : Universe → Prop where
  | init (fps_target now : ℚ) : Reachable (Universe.new Snake.new fps_target now)
  | tick_step (u u' : Universe) (k : Nat) (rand rest : List (ℚ × ℚ)) (now : ℚ) :
      Reachable u → rand_in_range rand → u.tick k rand now = some (u', rest) →
      Reachable u'
  | click_step (u : Universe) (d : DirectionName) : Reachable u → Reachable (u.on_click d)
  | toggle_step (u : Universe) : Reachable u → Reachable u.toggle_topology

/-- The freshly constructed universe used in the concrete test cases. -/
def U0 : Universe := Universe.new Snake.new 60 0

/-- A valid random stream (every sample in `[0, 1)`) whose first draw maps
to the occupied cell (5, 6) and whose second draw maps to the free cell
(0, 0), forcing one retry inside `randomize_apple`. -/
def badRand : List (ℚ × ℚ) := [(5 / 64, 6 / 64), (0, 0)]

/-- The intermediate universe of the first tick of `U0` right before the
apple respawn: head (6, 6) inserted (flattened index 390 marked alive). -/
def U1a : Universe :=
  { U0 with
      snake := { body := [⟨6, 6⟩, ⟨5, 6⟩, ⟨4, 6⟩, ⟨3, 6⟩, ⟨2, 6⟩], direction := ⟨1, 0⟩ }
      cells := U0.cells.set 390 Cell.Alive }

/-- Expected result of the first tick of `U0` under `badRand`: the retry
marks the free cell (0, 0) (index 0) alive, but the recorded apple is the
occupied first draw (5, 6). -/
def U1 : Universe :=
  { U0 with
      snake := { body := [⟨6, 6⟩, ⟨5, 6⟩, ⟨4, 6⟩, ⟨3, 6⟩, ⟨2, 6⟩], direction := ⟨1, 0⟩ }
      cells := (U0.cells.set 390 Cell.Alive).set 0 Cell.Alive
      apple := some ⟨5, 6⟩ }

/-- Expected result of the first tick of `U0` with the single draw (0, 0):
no tail is removed (the body grows to 5 segments) and the apple lands on
cell (0, 0). -/
def U2 : Universe :=
  { U0 with
      snake := { body := [⟨6, 6⟩, ⟨5, 6⟩, ⟨4, 6⟩, ⟨3, 6⟩, ⟨2, 6⟩], direction := ⟨1, 0⟩ }
      cells := (U0.cells.set 390 Cell.Alive).set 0 Cell.Alive
      apple := some ⟨0, 0⟩ }

/-- A running universe with an apple at (0, 0), used to witness the
non-eating move. -/
def UC3 : Universe :=
  { U0 with
      cells := U0.cells.set 0 Cell.Alive
      apple := some ⟨0, 0⟩ }

/-- A game-over universe. -/
def UStop : Universe := { U0 with game_over := true }

/-- A flat-topology universe whose head sits on the right edge moving
right. -/
def UFlat : Universe :=
  { U0 with
      topology := .Flat
      snake := { body := [⟨63, 6⟩], direction := ⟨1, 0⟩ } }

/-- A universe about to reverse into its own neck. -/
def UC6 : Universe :=
  { U0 with snake := { body := [⟨5, 6⟩, ⟨4, 6⟩], direction := ⟨-1, 0⟩ } }

/-- A universe whose candidate head equals its current tail segment. -/
def UC9 : Universe :=
  { U0 with snake := { body := [⟨1, 0⟩, ⟨1, 1⟩, ⟨0, 1⟩, ⟨0, 0⟩], direction := ⟨-1, 0⟩ } }

/-! ## Basic lemmas about the transition function -/

/-- If the game is over, `tick` returns the state unchanged. -/
theorem tick_of_game_over (u : Universe) (k : Nat) (rand : List (ℚ × ℚ)) (now : ℚ)
    (hgo : u.game_over = true) : u.tick k rand now = some (u, rand) := by
  unfold Universe.tick
  simp [hgo]

/-- If the candidate head is out of bounds (flat topology), `tick` only
sets the game-over flag. -/
theorem tick_of_candidate_none (u : Universe) (k : Nat) (rand : List (ℚ × ℚ)) (now : ℚ)
    (hd : Position) (hgo : u.game_over = false)
    (hhead : u.snake.body.head? = some hd)
    (hcand : u.candidate_head hd = none) :
    u.tick k rand now = some ({ u with game_over := true }, rand) := by
  unfold Universe.tick
  simp [hgo, hhead, hcand]

/-- If the candidate head collides with the body, `tick` only sets the
game-over flag. -/
theorem tick_of_collision (u : Universe) (k : Nat) (rand : List (ℚ × ℚ)) (now : ℚ)
    (hd nh : Position) (hgo : u.game_over = false)
    (hhead : u.snake.body.head? = some hd)
    (hcand : u.candidate_head hd = some nh)
    (hmem : nh ∈ u.snake.body) :
    u.tick k rand now = some ({ u with game_over := true }, rand) := by
  unfold Universe.tick
  simp [hgo, hhead, hcand, hmem]

/-- Flattened indices of in-bounds positions stay inside the cell buffer. -/
theorem get_index_lt (u : Universe) (p : Position) (hx : p.x < u.width)
    (hy : p.y < u.height) (hlen : u.cells.length = u.width * u.height) :
    u.get_index p.y p.x < u.cells.length := by
  unfold Universe.get_index
  rw [hlen]
  calc p.y * u.width + p.x < p.y * u.width + u.width := by omega
    _ = (p.y + 1) * u.width := by ring
    _ ≤ u.height * u.width := Nat.mul_le_mul_right _ hy
    _ = u.width * u.height := Nat.mul_comm _ _

/-- Flattened indexing is injective on positions whose x-coordinate is in
bounds. -/
theorem get_index_inj (u : Universe) (p q : Position) (hp : p.x < u.width)
    (hq : q.x < u.width) (h : u.get_index p.y p.x = u.get_index q.y q.x) : p = q := by
  unfold Universe.get_index at h
  have hw : 0 < u.width := Nat.lt_of_le_of_lt (Nat.zero_le _) hp
  have hx : p.x = q.x := by
    have h2 : (p.x + p.y * u.width) % u.width = (q.x + q.y * u.width) % u.width := by
      rw [Nat.add_comm p.x, Nat.add_comm q.x]
      exact congrArg (· % u.width) h
    simpa [Nat.add_mul_mod_self_right, Nat.mod_eq_of_lt hp, Nat.mod_eq_of_lt hq] using h2
  have hy : p.y = q.y := by
    have h3 : p.y * u.width = q.y * u.width := by omega
    exact Nat.eq_of_mul_eq_mul_right hw h3
  obtain ⟨px, py⟩ := p
  obtain ⟨qx, qy⟩ := q
  simp_all

/-! ## C7: GameOver is terminal -/

/-- C7: once the game-over flag is true, any call of `tick` (with any
measurement count, random stream and clock value) returns the state
completely unchanged, any sequence of further `tick` calls leaves the state
unchanged, and the flag stays true. -/
theorem c7_game_over_terminal (u : Universe) (k : Nat) (rand : List (ℚ × ℚ)) (now : ℚ)
    (inputs : List (Nat × List (ℚ × ℚ) × ℚ)) (hgo : u.game_over = true) :
    u.tick k rand now = some (u, rand) ∧ u.ticks inputs = some u ∧
      u.is_game_over = true := by
  refine ⟨tick_of_game_over u k rand now hgo, ?_, hgo⟩
  induction inputs with
  | nil => rfl
  | cons p rest ih =>
    obtain ⟨k', rand', now'⟩ := p
    simpa [Universe.ticks, tick_of_game_over u k' rand' now' hgo] using ih

/-- Witness for C7 at the concrete game-over universe `UStop`. -/
theorem c7_game_over_terminal_witness :
    UStop.game_over = true ∧
    (UStop.tick 1 [] 0 = some (UStop, []) ∧ UStop.ticks [(1, [], 1)] = some UStop ∧
      UStop.is_game_over = true) :=
  ⟨rfl, c7_game_over_terminal UStop 1 [] 0 [(1, [], 1)] rfl⟩

/-! ## C8: the frame-rate estimator -/

/-- C8: the first `tick` of a fresh counter leaves `fps` at the target
value supplied at construction and only updates the timestamp and the call
counter; every later call with elapsed time `now - last_frame` moves `fps`
to exactly `fps * (1 - 0.01) + (measurements / elapsed) * 0.01`. -/
theorem c8_fps_estimator (target t0 t1 : ℚ) (k0 : Nat) (c : FpsCounter) (k : Nat)
    (now : ℚ) (hframes : c.frames ≠ 0) :
    (FpsCounter.new target t0).tick k0 t1 =
      { last_frame := t1, frames := 1, fps := target } ∧
    c.tick k now =
      { last_frame := now, frames := c.frames + 1
        fps := c.fps * (1 - 1 / 100) + ((k : ℚ) / (now - c.last_frame)) * (1 / 100) } := by
  constructor
  · simp [FpsCounter.new, FpsCounter.tick]
  · simp [FpsCounter.tick, hframes, AVG_LEARNING_RATE]

/-- Witness for C8: a fresh counter with target 30 keeps fps 30 on the
first call; a counter that has already ticked once updates by the
exponential moving average. -/
theorem c8_fps_estimator_witness :
    ((⟨0, 1, 30⟩ : FpsCounter).frames ≠ 0) ∧
    (FpsCounter.new 30 0).tick 7 2 = { last_frame := 2, frames := 1, fps := 30 } ∧
    (⟨0, 1, 30⟩ : FpsCounter).tick 2 5 =
      { last_frame := 5, frames := 2
        fps := 30 * (1 - 1 / 100) + ((2 : ℚ) / (5 - 0)) * (1 / 100) } :=
  ⟨by decide, (c8_fps_estimator 30 0 2 7 ⟨0, 1, 30⟩ 2 5 (by decide)).1,
    (c8_fps_estimator 30 0 2 7 ⟨0, 1, 30⟩ 2 5 (by decide)).2⟩

/-! ## C4: toroidal wrap-around -/

/-- C4: under toroidal topology the candidate head is computed with the
Euclidean (always-nonnegative) modulo, coordinate-wise; in particular a
head on the right edge moving right wraps to x = 0 with its row kept. -/
theorem c4_toroidal_wrap (u : Universe) (hd : Position)
    (htop : u.topology = UniverseTopology.Toroidal) (hw : 0 < u.width) :
    u.candidate_head hd =
      some ⟨(((hd.x : Int) + u.snake.direction.vx).emod (u.width : Int)).toNat,
            (((hd.y : Int) + u.snake.direction.vy).emod (u.height : Int)).toNat⟩ ∧
    (hd.x = u.width - 1 → hd.y < u.height → u.snake.direction = ⟨1, 0⟩ →
      u.candidate_head hd = some ⟨0, hd.y⟩) := by
  have hgen : u.candidate_head hd =
      some ⟨(((hd.x : Int) + u.snake.direction.vx).emod (u.width : Int)).toNat,
            (((hd.y : Int) + u.snake.direction.vy).emod (u.height : Int)).toNat⟩ := by
    simp [Universe.candidate_head, Universe.add_u32_i32, htop]
  refine ⟨hgen, fun hx hy hdir => ?_⟩
  rw [hgen, hdir]
  have hx' : ((hd.x : Int) + 1).emod (u.width : Int) = 0 := by
    have h1 : (hd.x : Int) + 1 = (u.width : Int) := by omega
    rw [h1]
    exact Int.emod_self
  have hy' : ((hd.y : Int)).emod (u.height : Int) = (hd.y : Int) :=
    Int.emod_eq_of_lt (by omega) (by exact_mod_cast hy)
  simp [hx', hy']

/-- Witness for C4 on the initial universe with a head on the right edge:
it wraps to (0, 6). -/
theorem c4_toroidal_wrap_witness :
    U0.topology = UniverseTopology.Toroidal ∧ 0 < U0.width ∧
    U0.candidate_head ⟨63, 6⟩ =
      some ⟨(((63 : Nat) : Int) + U0.snake.direction.vx).emod ((U0.width : Int)) |>.toNat,
            (((6 : Nat) : Int) + U0.snake.direction.vy).emod ((U0.height : Int)) |>.toNat⟩ ∧
    U0.candidate_head ⟨63, 6⟩ = some ⟨0, 6⟩ :=
  ⟨rfl, by decide,
    (c4_toroidal_wrap U0 ⟨63, 6⟩ rfl (by decide)).1,
    (c4_toroidal_wrap U0 ⟨63, 6⟩ rfl (by decide)).2 rfl (by decide) rfl⟩

/-! ## C5: flat topology, out-of-bounds move -/

/-- C5: in flat topology, a candidate head outside the board makes `tick`
set the game-over flag and return with the grid, snake, apple and fps
estimator untouched. -/
theorem c5_flat_out_of_bounds (u : Universe) (k : Nat) (rand : List (ℚ × ℚ)) (now : ℚ)
    (hd : Position) (hgo : u.game_over = false)
    (hhead : u.snake.body.head? = some hd)
    (htop : u.topology = UniverseTopology.Flat)
    (hoob : (hd.x : Int) + u.snake.direction.vx < 0 ∨
            (hd.y : Int) + u.snake.direction.vy < 0 ∨
            (hd.x : Int) + u.snake.direction.vx ≥ (u.width : Int) ∨
            (hd.y : Int) + u.snake.direction.vy ≥ (u.height : Int)) :
    u.tick k rand now = some ({ u with game_over := true }, rand) ∧
    ({ u with game_over := true } : Universe).cells = u.cells ∧
    ({ u with game_over := true } : Universe).snake = u.snake ∧
    ({ u with game_over := true } : Universe).apple = u.apple ∧
    ({ u with game_over := true } : Universe).counter = u.counter ∧
    ({ u with game_over := true } : Universe).game_over = true := by
  have hcand : u.candidate_head hd = none := by
    simp only [Universe.candidate_head, htop]
    rw [if_pos hoob]
  exact ⟨tick_of_candidate_none u k rand now hd hgo hhead hcand, rfl, rfl, rfl, rfl, rfl⟩

/-- Witness for C5: `UFlat` has its head at (63, 6) moving right on a flat
64 × 64 board, so its tick games over without other mutation. -/
theorem c5_flat_out_of_bounds_witness :
    UFlat.game_over = false ∧ UFlat.snake.body.head? = some ⟨63, 6⟩ ∧
    UFlat.topology = UniverseTopology.Flat ∧
    ((63 : Nat) : Int) + UFlat.snake.direction.vx ≥ (UFlat.width : Int) ∧
    UFlat.tick 1 [] 0 = some ({ UFlat with game_over := true }, []) :=
  ⟨rfl, rfl, rfl, by decide,
    (c5_flat_out_of_bounds UFlat 1 [] 0 ⟨63, 6⟩ rfl rfl rfl
      (Or.inr (Or.inr (Or.inl (by decide))))).1⟩

/-! ## C6: self-collision leaves the grid unchanged -/

/-- C6: if the candidate head hits the body, `tick` sets the game-over
flag and the grid buffer is unchanged. -/
theorem c6_self_collision (u : Universe) (k : Nat) (rand : List (ℚ × ℚ)) (now : ℚ)
    (hd nh : Position) (hgo : u.game_over = false)
    (hhead : u.snake.body.head? = some hd)
    (hcand : u.candidate_head hd = some nh)
    (hmem : nh ∈ u.snake.body) :
    u.tick k rand now = some ({ u with game_over := true }, rand) ∧
    ({ u with game_over := true } : Universe).cells = u.cells ∧
    ({ u with game_over := true } : Universe).game_over = true :=
  ⟨tick_of_collision u k rand now hd nh hgo hhead hcand hmem, rfl, rfl⟩

/-- Witness for C6: `UC6` reverses into its neck segment (4, 6). -/
theorem c6_self_collision_witness :
    UC6.game_over = false ∧ UC6.snake.body.head? = some ⟨5, 6⟩ ∧
    UC6.candidate_head ⟨5, 6⟩ = some ⟨4, 6⟩ ∧ (⟨4, 6⟩ : Position) ∈ UC6.snake.body ∧
    UC6.tick 1 [] 0 = some ({ UC6 with game_over := true }, []) :=
  ⟨rfl, rfl, by decide, by decide,
    (c6_self_collision UC6 1 [] 0 ⟨5, 6⟩ ⟨4, 6⟩ rfl rfl (by decide) (by decide)).1⟩

/-! ## C9: collision with the current tail still ends the game -/

/-- C9: the self-collision check runs before the tail is popped, so a
candidate head equal to the current tail segment ends the game, leaving
body and grid unchanged — even though a non-eating move would have vacated
that cell in the same tick. -/
theorem c9_tail_collision (u : Universe) (k : Nat) (rand : List (ℚ × ℚ)) (now : ℚ)
    (hd nh last : Position) (hgo : u.game_over = false)
    (hhead : u.snake.body.head? = some hd)
    (hcand : u.candidate_head hd = some nh)
    (hlast : u.snake.body.getLast? = some last)
    (heq : nh = last) :
    u.tick k rand now = some ({ u with game_over := true }, rand) ∧
    ({ u with game_over := true } : Universe).snake.body = u.snake.body ∧
    ({ u with game_over := true } : Universe).cells = u.cells ∧
    ({ u with game_over := true } : Universe).game_over = true := by
  have hmem : nh ∈ u.snake.body := by
    rw [heq]
    exact List.mem_of_getLast?_eq_some hlast
  exact ⟨tick_of_collision u k rand now hd nh hgo hhead hcand hmem, rfl, rfl, rfl⟩

/-- Witness for C9: the candidate head of `UC9` is its tail (0, 0). -/
theorem c9_tail_collision_witness :
    UC9.game_over = false ∧ UC9.snake.body.head? = some ⟨1, 0⟩ ∧
    UC9.candidate_head ⟨1, 0⟩ = some ⟨0, 0⟩ ∧
    UC9.snake.body.getLast? = some ⟨0, 0⟩ ∧
    UC9.tick 1 [] 0 = some ({ UC9 with game_over := true }, []) :=
  ⟨rfl, rfl, by decide, rfl,
    (c9_tail_collision UC9 1 [] 0 ⟨1, 0⟩ ⟨0, 0⟩ ⟨0, 0⟩ rfl rfl (by decide) rfl rfl).1⟩


/-! ## Concrete evaluation of the first tick of U0 -/

theorem U0_cells_length : U0.cells.length = 4096 := by
  simp [U0, Universe.new]

theorem U0_cells_getElem (i : Nat) (hi : i < 4096) :
    U0.cells[i]? = some (if Snake.new.has_index i 64 then Cell.Alive else Cell.Dead) := by
  have h64 : i < 64 * 64 := by omega
  simp [U0, Universe.new, List.getElem?_map, List.getElem?_range h64]

theorem tick_of_no_apple (u : Universe) (k : Nat) (rand : List (ℚ × ℚ)) (now : ℚ)
    (hd nh : Position) (hgo : u.game_over = false)
    (hhead : u.snake.body.head? = some hd)
    (hcand : u.candidate_head hd = some nh)
    (hmem : nh ∉ u.snake.body)
    (happle : u.apple = none)
    (hidx : u.get_index nh.y nh.x < u.cells.length) :
    u.tick k rand now =
      (Universe.randomize_apple
          { u with
              snake := { u.snake with body := nh :: u.snake.body }
              cells := u.cells.set (u.get_index nh.y nh.x) Cell.Alive } rand).map
        (fun r => (r.1.tick_fps k now, r.2)) := by
  unfold Universe.tick
  rw [hgo, hhead]
  simp only [Bool.false_eq_true, if_false]
  rw [hcand]
  simp only [if_neg hmem]
  rw [happle]
  simp only [Universe.tick_finish, setCell]
  rw [if_pos hidx]
  simp only [happle, hgo]
  cases hX : Universe.randomize_apple
      { u with
          snake := { u.snake with body := nh :: u.snake.body }
          cells := u.cells.set (u.get_index nh.y nh.x) Cell.Alive
          apple := none
          game_over := false } rand with
  | none => rfl
  | some v =>
    obtain ⟨u2, r2⟩ := v
    rfl
theorem rand_coord_0 : ((random_position (0 : ℚ) ((64 : Nat) : Int)).emod (2 ^ 32)).toNat = 0 := by
  have h : random_position (0 : ℚ) ((64 : Nat) : Int) = 0 := by
    norm_num [random_position]
  rw [h]
  decide

theorem rand_coord_5 : ((random_position (5 / 64 : ℚ) ((64 : Nat) : Int)).emod (2 ^ 32)).toNat = 5 := by
  have h : random_position (5 / 64 : ℚ) ((64 : Nat) : Int) = 5 := by
    norm_num [random_position]
  rw [h]
  decide

theorem rand_coord_6 : ((random_position (6 / 64 : ℚ) ((64 : Nat) : Int)).emod (2 ^ 32)).toNat = 6 := by
  have h : random_position (6 / 64 : ℚ) ((64 : Nat) : Int) = 6 := by
    norm_num [random_position]
  rw [h]
  decide

theorem U1a_cells : U1a.cells = U0.cells.set 390 Cell.Alive := by
  simp only [U1a]

theorem U1a_cells_length : U1a.cells.length = 4096 := by
  rw [U1a_cells, List.length_set, U0_cells_length]

theorem U1a_cells_389 : U1a.cells[389]? = some Cell.Alive := by
  rw [U1a_cells, List.getElem?_set_ne (by decide : (390 : Nat) ≠ 389)]
  rw [U0_cells_getElem 389 (by norm_num)]
  decide

theorem U1a_cells_0 : U1a.cells[0]? = some Cell.Dead := by
  rw [U1a_cells, List.getElem?_set_ne (by decide : (390 : Nat) ≠ 0)]
  rw [U0_cells_getElem 0 (by norm_num)]
  decide

theorem U1a_randomize_single :
    U1a.randomize_apple [((0 : ℚ), (0 : ℚ))] = some (U2, []) := by
  unfold Universe.randomize_apple
  simp only [show U1a.width = 64 from rfl, show U1a.height = 64 from rfl,
    rand_coord_0, Universe.get_index]
  norm_num [U1a_cells_0]
  simp only [U2, U1a, U1a_cells, show U0.width = 64 from rfl, show U0.height = 64 from rfl]
theorem U1a_randomize_badRand : U1a.randomize_apple badRand = some (U1, []) := by
  show U1a.randomize_apple ((5 / 64, 6 / 64) :: [((0 : ℚ), (0 : ℚ))]) = _
  unfold Universe.randomize_apple
  simp only [show U1a.width = 64 from rfl, show U1a.height = 64 from rfl,
    rand_coord_5, rand_coord_6, Universe.get_index]
  have e1 : (6 * 64 + 5 : Nat) = 389 := by norm_num
  rw [e1, U1a_cells_389]
  simp only [reduceCtorEq, if_false]
  rw [U1a_randomize_single]
  simp only [U1, U2, U1a, U1a_cells, show U0.width = 64 from rfl, show U0.height = 64 from rfl]

theorem tick_fps_zero (u : Universe) (now : ℚ) : u.tick_fps 0 now = u := by
  unfold Universe.tick_fps
  rw [if_neg (by omega : ¬ (0 : Nat) > 0)]

theorem U0_tick_badRand : U0.tick 0 badRand 0 = some (U1, []) := by
  have hidx : U0.get_index (6 : Nat) (6 : Nat) < U0.cells.length := by
    rw [U0_cells_length]
    norm_num [Universe.get_index, show U0.width = 64 from rfl]
  rw [tick_of_no_apple U0 0 badRand 0 ⟨5, 6⟩ ⟨6, 6⟩ rfl rfl (by decide) (by decide) rfl hidx]
  show (U1a.randomize_apple badRand).map (fun r => (r.1.tick_fps 0 0, r.2)) = some (U1, [])
  rw [U1a_randomize_badRand, Option.map_some']
  rw [tick_fps_zero]

theorem U0_tick_single : U0.tick 0 [((0 : ℚ), (0 : ℚ))] 0 = some (U2, []) := by
  have hidx : U0.get_index (6 : Nat) (6 : Nat) < U0.cells.length := by
    rw [U0_cells_length]
    norm_num [Universe.get_index, show U0.width = 64 from rfl]
  rw [tick_of_no_apple U0 0 [((0 : ℚ), (0 : ℚ))] 0 ⟨5, 6⟩ ⟨6, 6⟩ rfl rfl (by decide) (by decide) rfl hidx]
  show (U1a.randomize_apple [((0 : ℚ), (0 : ℚ))]).map (fun r => (r.1.tick_fps 0 0, r.2)) = some (U2, [])
  rw [U1a_randomize_single, Option.map_some']
  rw [tick_fps_zero]

/-- The committed buffer of `U1` (and `U2`). -/
theorem U1_cells : U1.cells = (U0.cells.set 390 Cell.Alive).set 0 Cell.Alive := by
  simp only [U1]

/-- The committed buffer of `U2` equals that of `U1`. -/
theorem U2_cells : U2.cells = (U0.cells.set 390 Cell.Alive).set 0 Cell.Alive := by
  simp only [U2]

/-- Cell (0, 0) of the post-tick buffer is alive. -/
theorem U1_cells_0 : U1.cells[0]? = some Cell.Alive := by
  rw [U1_cells]
  rw [List.getElem?_set_self]
  rw [List.length_set, U0_cells_length]
  norm_num

/-- The old tail cell (2, 6), flattened index 386, is still alive after the
first tick. -/
theorem U2_cells_386 : U2.cells[386]? = some Cell.Alive := by
  rw [U2_cells]
  rw [List.getElem?_set_ne (by decide : (0 : Nat) ≠ 386)]
  rw [List.getElem?_set_ne (by decide : (390 : Nat) ≠ 386)]
  rw [U0_cells_getElem 386 (by norm_num)]
  decide

/-- All samples of `badRand` lie in `[0, 1)`. -/
theorem badRand_in_range : rand_in_range badRand := by
  intro p hp
  simp only [badRand, List.mem_cons, List.not_mem_nil, or_false] at hp
  rcases hp with h | h <;> subst h <;> norm_num

/-! ## C1 and C2: the apple-respawn bug -/

/-- C1: the claimed invariant — a cell is alive iff it is a snake segment
or the current apple — is violated by the code on a reachable state.  After
one completed tick of the freshly constructed universe, driven by the valid
random stream `badRand` (first draw hits the occupied cell (5, 6), retry
hits the free cell (0, 0)), cell (0, 0) (flattened index 0) is Alive, yet
(0, 0) is neither a body position nor the recorded apple position, because
`randomize_apple` overwrites the retry's apple with the occupied first
draw. -/
theorem c1_alive_iff_body_or_apple_violated :
    rand_in_range badRand ∧
    U0.tick 0 badRand 0 = some (U1, []) ∧
    U1.cells[0]? = some Cell.Alive ∧
    (⟨0, 0⟩ : Position) ∉ U1.snake.body ∧
    U1.apple = some ⟨5, 6⟩ ∧
    U1.apple ≠ some ⟨0, 0⟩ :=
  ⟨badRand_in_range, U0_tick_badRand, U1_cells_0, by decide, rfl, by decide⟩

/-- C2: on the same run, the respawned apple recorded by the code is the
position (5, 6), which was occupied by the snake body and whose cell
(flattened index 389) was Alive immediately before the respawn — not the
Dead cell that was marked Alive.  This refutes the claim that the recorded
apple is always a previously Dead cell. -/
theorem c2_apple_respawn_violated :
    rand_in_range badRand ∧
    (⟨5, 6⟩ : Position) ∈ U0.snake.body ∧
    U0.cells[389]? = some Cell.Alive ∧
    U0.tick 0 badRand 0 = some (U1, []) ∧
    U1.apple = some ⟨5, 6⟩ ∧
    (⟨5, 6⟩ : Position) ∈ U1.snake.body :=
  ⟨badRand_in_range, by decide,
    by rw [U0_cells_getElem 389 (by norm_num)]; decide,
    U0_tick_badRand, rfl, by decide⟩

/-! ## C3: the non-eating move -/

/-- C3 counterexample: on the very first tick no apple exists, so the
candidate head (6, 6) does not equal any apple position, the game does not
end, and yet the body length grows from 4 to 5 and the old tail cell
(2, 6) (flattened index 386) stays Alive: the tail is only removed when an
apple exists. -/
theorem c3_first_tick_grows_without_eating :
    U0.apple = none ∧
    U0.snake.body.length = 4 ∧
    U0.tick 0 [((0 : ℚ), (0 : ℚ))] 0 = some (U2, []) ∧
    U2.game_over = false ∧
    U2.snake.body.length = 5 ∧
    U2.cells[386]? = some Cell.Alive :=
  ⟨rfl, by decide, U0_tick_single, rfl, by decide, U2_cells_386⟩
theorem tick_non_eating (u : Universe) (k : Nat) (rand : List (ℚ × ℚ)) (now : ℚ)
    (hd nh a last : Position)
    (hgo : u.game_over = false)
    (hhead : u.snake.body.head? = some hd)
    (hcand : u.candidate_head hd = some nh)
    (hmem : nh ∉ u.snake.body)
    (happle : u.apple = some a)
    (hne : nh ≠ a)
    (hlast : u.snake.body.getLast? = some last)
    (hidxl : u.get_index last.y last.x < u.cells.length)
    (hidxn : u.get_index nh.y nh.x < u.cells.length) :
    u.tick k rand now =
      some (Universe.tick_fps
        { u with
            snake := { u.snake with body := nh :: u.snake.body.dropLast }
            cells := (u.cells.set (u.get_index last.y last.x) Cell.Dead).set
                       (u.get_index nh.y nh.x) Cell.Alive } k now, rand) := by
  unfold Universe.tick
  rw [hgo, hhead]
  simp only [Bool.false_eq_true, if_false]
  rw [hcand]
  simp only [if_neg hmem]
  rw [happle]
  simp only [if_neg hne]
  rw [hlast]
  simp only [Universe.get_index] at hidxl hidxn ⊢
  simp only [setCell, hidxl, ite_true]
  unfold Universe.tick_finish
  simp only [setCell, Universe.get_index, List.length_set, hidxn, ite_true]

theorem tick_fps_cells (u : Universe) (k : Nat) (now : ℚ) :
    (u.tick_fps k now).cells = u.cells := by
  unfold Universe.tick_fps
  split <;> rfl

theorem tick_fps_snake (u : Universe) (k : Nat) (now : ℚ) :
    (u.tick_fps k now).snake = u.snake := by
  unfold Universe.tick_fps
  split <;> rfl

theorem tick_fps_game_over (u : Universe) (k : Nat) (now : ℚ) :
    (u.tick_fps k now).game_over = u.game_over := by
  unfold Universe.tick_fps
  split <;> rfl

theorem tick_fps_apple (u : Universe) (k : Nat) (now : ℚ) :
    (u.tick_fps k now).apple = u.apple := by
  unfold Universe.tick_fps
  split <;> rfl

/-- C3 (amended — the claim holds whenever an apple exists): a tick in
which the game does not end and the candidate head differs from the apple
position keeps the body length unchanged; the tail segment is removed and
its cell becomes Dead, and the new head is inserted at the front and its
cell becomes Alive.  (On the very first tick, before any apple exists, the
tail is not removed and the body grows; see the counterexample.) -/
theorem c3_non_eating_move (u : Universe) (k : Nat) (rand : List (ℚ × ℚ)) (now : ℚ)
    (hd nh a last : Position)
    (hgo : u.game_over = false)
    (hhead : u.snake.body.head? = some hd)
    (hcand : u.candidate_head hd = some nh)
    (hmem : nh ∉ u.snake.body)
    (happle : u.apple = some a)
    (hne : nh ≠ a)
    (hlast : u.snake.body.getLast? = some last)
    (hidxl : u.get_index last.y last.x < u.cells.length)
    (hidxn : u.get_index nh.y nh.x < u.cells.length)
    (hxl : last.x < u.width) (hxn : nh.x < u.width) :
    (u.tick k rand now).map (fun r => r.1.game_over) = some false ∧
    (u.tick k rand now).map (fun r => r.1.snake.body.length) = some u.snake.body.length ∧
    (u.tick k rand now).map (fun r => r.1.snake.body) = some (nh :: u.snake.body.dropLast) ∧
    (u.tick k rand now).map (fun r => r.1.cells[u.get_index last.y last.x]?) =
      some (some Cell.Dead) ∧
    (u.tick k rand now).map (fun r => r.1.cells[u.get_index nh.y nh.x]?) =
      some (some Cell.Alive) ∧
    (u.tick k rand now).map (fun r => r.1.apple) = some u.apple ∧
    (u.tick k rand now).map (fun r => r.2) = some rand := by
  have hlastmem : last ∈ u.snake.body := List.mem_of_getLast?_eq_some hlast
  have hnl : nh ≠ last := fun h => hmem (h ▸ hlastmem)
  have hidxne : u.get_index nh.y nh.x ≠ u.get_index last.y last.x := by
    intro h
    exact hnl (get_index_inj u nh last hxn hxl h)
  have hbody0 : u.snake.body ≠ [] := by
    intro h
    rw [h] at hhead
    exact Option.noConfusion hhead
  rw [tick_non_eating u k rand now hd nh a last hgo hhead hcand hmem happle hne hlast
    hidxl hidxn]
  simp only [Option.map_some', tick_fps_cells, tick_fps_snake, tick_fps_game_over,
    tick_fps_apple]
  refine ⟨by rw [hgo], ?_, trivial, ?_, ?_, trivial, trivial⟩
  · have h1 : u.snake.body.dropLast.length = u.snake.body.length - 1 :=
      List.length_dropLast u.snake.body
    have h2 : 0 < u.snake.body.length := List.length_pos.mpr hbody0
    simp only [List.length_cons, h1]
    congr 1
    omega
  · rw [List.getElem?_set_ne hidxne, List.getElem?_set_self hidxl]
  · rw [List.getElem?_set_self]
    rw [List.length_set]
    exact hidxn

theorem UC3_cells : UC3.cells = U0.cells.set 0 Cell.Alive := by
  simp only [UC3]

theorem UC3_cells_length : UC3.cells.length = 4096 := by
  rw [UC3_cells, List.length_set, U0_cells_length]

/-- Witness for the amended C3 on the concrete universe `UC3` (apple at
(0, 0), snake at row 6 heading right): the non-eating tick keeps length 4,
kills the old tail cell 386 and lights the new head cell 390. -/
theorem c3_non_eating_move_witness :
    UC3.game_over = false ∧ UC3.snake.body.head? = some ⟨5, 6⟩ ∧
    UC3.candidate_head ⟨5, 6⟩ = some ⟨6, 6⟩ ∧
    (⟨6, 6⟩ : Position) ∉ UC3.snake.body ∧
    UC3.apple = some ⟨0, 0⟩ ∧
    UC3.snake.body.getLast? = some ⟨2, 6⟩ ∧
    (UC3.tick 2 [] 7).map (fun r => r.1.game_over) = some false ∧
    (UC3.tick 2 [] 7).map (fun r => r.1.snake.body.length) = some 4 ∧
    (UC3.tick 2 [] 7).map (fun r => r.1.snake.body) =
      some [⟨6, 6⟩, ⟨5, 6⟩, ⟨4, 6⟩, ⟨3, 6⟩] ∧
    (UC3.tick 2 [] 7).map (fun r => r.1.cells[UC3.get_index 6 2]?) =
      some (some Cell.Dead) ∧
    (UC3.tick 2 [] 7).map (fun r => r.1.cells[UC3.get_index 6 6]?) =
      some (some Cell.Alive) ∧
    (UC3.tick 2 [] 7).map (fun r => r.1.apple) = some (some ⟨0, 0⟩) := by
  have hidxl : UC3.get_index (6 : Nat) (2 : Nat) < UC3.cells.length := by
    rw [UC3_cells_length]
    norm_num [Universe.get_index, show UC3.width = 64 from rfl]
  have hidxn : UC3.get_index (6 : Nat) (6 : Nat) < UC3.cells.length := by
    rw [UC3_cells_length]
    norm_num [Universe.get_index, show UC3.width = 64 from rfl]
  have H := c3_non_eating_move UC3 2 [] 7 ⟨5, 6⟩ ⟨6, 6⟩ ⟨0, 0⟩ ⟨2, 6⟩ rfl rfl
    (by decide) (by decide) rfl (by decide) rfl hidxl hidxn (by decide) (by decide)
  exact ⟨rfl, rfl, by decide, by decide, rfl, rfl, H.1, H.2.1, H.2.2.1, H.2.2.2.1,
    H.2.2.2.2.1, H.2.2.2.2.2.1⟩
/-! ## C10: all reachable states stay in bounds -/

/-- `Int.emod` is the `%` of `Int`. -/
theorem emod_as_mod (a b : Int) : a.emod b = a % b := rfl

/-- A random sample in `[0, 1)` yields a coordinate below the (positive,
`u32`-sized) bound. -/
theorem random_coord_lt {r : ℚ} {w : Nat} (h0 : 0 ≤ r) (h1 : r < 1) (hw : 0 < w)
    (hw32 : w ≤ 2 ^ 32) :
    ((random_position r (w : Int)).emod (2 ^ 32)).toNat < w := by
  have hcast : (((w : Int) : ℚ)) = (w : ℚ) := by push_cast; ring
  have hwq : (0 : ℚ) < (w : ℚ) := by exact_mod_cast hw
  have hfl : 0 ≤ random_position r (w : Int) := by
    unfold random_position
    rw [hcast]
    exact Int.floor_nonneg.mpr (mul_nonneg h0 (le_of_lt hwq))
  have hlt : random_position r (w : Int) < (w : Int) := by
    unfold random_position
    rw [hcast]
    rw [Int.floor_lt]
    push_cast
    calc r * (w : ℚ) < 1 * (w : ℚ) := by exact mul_lt_mul_of_pos_right h1 hwq
      _ = (w : ℚ) := one_mul _
  have h32 : random_position r (w : Int) < (2 : Int) ^ 32 := by
    calc random_position r (w : Int) < (w : Int) := hlt
      _ ≤ (2 : Int) ^ 32 := by exact_mod_cast hw32
  rw [emod_as_mod, Int.emod_eq_of_lt hfl h32, Int.toNat_lt hfl]
  exact hlt

/-- The candidate head of a running universe lies on the board. -/
theorem candidate_head_in_bounds (u : Universe) (hd nh : Position)
    (hw : 0 < u.width) (hh : 0 < u.height)
    (h : u.candidate_head hd = some nh) : nh.x < u.width ∧ nh.y < u.height := by
  unfold Universe.candidate_head at h
  cases htop : u.topology with
  | Flat =>
    rw [htop] at h
    simp only [] at h
    split at h
    · exact absurd h (by simp)
    · rename_i hcond
      push_neg at hcond
      obtain ⟨h1, h2, h3, h4⟩ := hcond
      have hinj := Option.some.inj h
      subst hinj
      constructor
      · simpa [Int.toNat_lt h1] using h3
      · simpa [Int.toNat_lt h2] using h4
  | Toroidal =>
    rw [htop] at h
    simp only [] at h
    have hinj := Option.some.inj h
    subst hinj
    have hwz : ((u.width : Int)) ≠ 0 := by exact_mod_cast Nat.pos_iff_ne_zero.mp hw
    have hhz : ((u.height : Int)) ≠ 0 := by exact_mod_cast Nat.pos_iff_ne_zero.mp hh
    refine ⟨?_, ?_⟩
    · show (((hd.x : Int) + u.snake.direction.vx).emod (u.width : Int)).toNat < u.width
      rw [emod_as_mod, Int.toNat_lt (Int.emod_nonneg _ hwz)]
      exact Int.emod_lt_of_pos _ (by exact_mod_cast hw)
    · show (((hd.y : Int) + u.snake.direction.vy).emod (u.height : Int)).toNat < u.height
      rw [emod_as_mod, Int.toNat_lt (Int.emod_nonneg _ hhz)]
      exact Int.emod_lt_of_pos _ (by exact_mod_cast hh)
/-- `randomize_apple` preserves well-formedness, touches only `cells` and
`apple`, records an in-bounds apple, and returns a suffix of the stream. -/
theorem randomize_apple_wf (u : Universe) (rand : List (ℚ × ℚ)) (u' : Universe)
    (rest : List (ℚ × ℚ)) (hwf : u.wf) (hrand : rand_in_range rand)
    (h : u.randomize_apple rand = some (u', rest)) :
    u'.wf ∧ u'.snake = u.snake ∧ u'.width = u.width ∧ u'.height = u.height ∧
    u'.game_over = u.game_over ∧ u'.topology = u.topology ∧ u'.counter = u.counter ∧
    (∃ a, u'.apple = some a) ∧ (∀ p ∈ rest, p ∈ rand) := by
  obtain ⟨hlen, hw, hh, hw32, hh32, hbody, happ⟩ := hwf
  induction rand generalizing u' rest with
  | nil => simp [Universe.randomize_apple] at h
  | cons pr tail ih =>
    obtain ⟨rx, ry⟩ := pr
    obtain ⟨hr0, hr1, hr2, hr3⟩ := hrand (rx, ry) (List.mem_cons_self _ _)
    have hax : ((random_position rx (u.width : Int)).emod (2 ^ 32)).toNat < u.width :=
      random_coord_lt hr0 hr1 hw hw32
    have hay : ((random_position ry (u.height : Int)).emod (2 ^ 32)).toNat < u.height :=
      random_coord_lt hr2 hr3 hh hh32
    unfold Universe.randomize_apple at h
    simp only [] at h
    split at h
    · exact absurd h (by simp)
    · split at h
      · -- the drawn cell is dead: the apple is placed here
        have hinj := Option.some.inj h
        rw [Prod.mk.injEq] at hinj
        obtain ⟨hu, hrest⟩ := hinj
        subst hu
        subst hrest
        refine ⟨⟨?_, hw, hh, hw32, hh32, ?_, ?_⟩, rfl, rfl, rfl, rfl, rfl, rfl,
          ⟨_, rfl⟩, ?_⟩
        · simp only [List.length_set]
          exact hlen
        · intro p hp
          exact hbody p hp
        · intro a ha
          have ha2 := Option.some.inj ha
          subst ha2
          exact ⟨hax, hay⟩
        · intro p hp
          exact List.mem_cons_of_mem _ hp
      · -- occupied: retry, then overwrite the recorded apple
        split at h
        · exact absurd h (by simp)
        · rename_i u2 rest2 heq
          have IH := ih u2 rest2 (fun p hp => hrand p (List.mem_cons_of_mem _ hp)) heq
          obtain ⟨⟨hlen2, hw2, hh2, hw232, hh232, hbody2, happ2⟩, hsnake2, hwidth2,
            hheight2, hgo2, htop2, hctr2, hex2, hsub2⟩ := IH
          have hinj := Option.some.inj h
          rw [Prod.mk.injEq] at hinj
          obtain ⟨hu, hrest⟩ := hinj
          subst hu
          subst hrest
          refine ⟨⟨hlen2, hw2, hh2, hw232, hh232, ?_, ?_⟩, hsnake2, hwidth2, hheight2,
            hgo2, htop2, hctr2, ⟨_, rfl⟩, ?_⟩
          · intro p hp
            exact hbody2 p hp
          · intro a ha
            have ha2 := Option.some.inj ha
            subst ha2
            exact ⟨lt_of_lt_of_eq hax hwidth2.symm, lt_of_lt_of_eq hay hheight2.symm⟩
          · intro p hp
            exact List.mem_cons_of_mem _ (hsub2 p hp)

/-- `tick_fps` only touches the counter, so it preserves well-formedness. -/
theorem tick_fps_wf (u : Universe) (k : Nat) (now : ℚ) (hwf : u.wf) :
    (u.tick_fps k now).wf := by
  unfold Universe.tick_fps
  split
  · exact hwf
  · exact hwf

/-- The tail phase of `tick` preserves well-formedness when the inserted
head is in bounds and the working buffer has the right length. -/
theorem tick_finish_wf (u : Universe) (next : List Cell) (nh : Position) (k : Nat)
    (rand : List (ℚ × ℚ)) (now : ℚ) (u' : Universe) (rest : List (ℚ × ℚ))
    (hw : 0 < u.width) (hh : 0 < u.height)
    (hw32 : u.width ≤ 2 ^ 32) (hh32 : u.height ≤ 2 ^ 32)
    (hbody : ∀ p ∈ u.snake.body, u.pos_in_bounds p)
    (happ : ∀ a, u.apple = some a → u.pos_in_bounds a)
    (hnext : next.length = u.width * u.height)
    (hnh : u.pos_in_bounds nh)
    (hrand : rand_in_range rand)
    (h : u.tick_finish next nh k rand now = some (u', rest)) :
    u'.wf ∧ (∀ p ∈ rest, p ∈ rand) := by
  unfold Universe.tick_finish setCell at h
  split at h
  · exact absurd h (by simp)
  · rename_i next1 hnext1
    have hwf1 : (⟨u.width, u.height, next1,
        { body := nh :: u.snake.body, direction := u.snake.direction },
        u.apple, u.game_over, u.topology, u.counter⟩ : Universe).wf := by
      refine ⟨?_, hw, hh, hw32, hh32, ?_, ?_⟩
      · show next1.length = u.width * u.height
        have : next1 = next.set (u.get_index nh.y nh.x) Cell.Alive := by
          by_cases hc : u.get_index nh.y nh.x < next.length
          · rw [if_pos hc] at hnext1
            exact (Option.some.inj hnext1).symm
          · rw [if_neg hc] at hnext1
            exact absurd hnext1 (by simp)
        rw [this, List.length_set]
        exact hnext
      · intro p hp
        rcases List.mem_cons.mp hp with hp1 | hp2
        · subst hp1
          exact hnh
        · exact hbody p hp2
      · intro a ha
        exact happ a ha
    simp only [] at h
    split at h
    · -- an apple already exists
      have hinj := Option.some.inj h
      rw [Prod.mk.injEq] at hinj
      obtain ⟨hu, hrest⟩ := hinj
      subst hu
      subst hrest
      exact ⟨tick_fps_wf _ k now hwf1, fun p hp => hp⟩
    · -- no apple: respawn on the committed buffer
      split at h
      · exact absurd h (by simp)
      · rename_i u2 rest2 heq
        have IH := randomize_apple_wf _ rand u2 rest2 hwf1 hrand heq
        have hinj := Option.some.inj h
        rw [Prod.mk.injEq] at hinj
        obtain ⟨hu, hrest⟩ := hinj
        subst hu
        subst hrest
        exact ⟨tick_fps_wf _ k now IH.1, IH.2.2.2.2.2.2.2.2⟩
/-- One successful `tick` preserves well-formedness, given in-range random
samples. -/
theorem tick_wf (u : Universe) (k : Nat) (rand : List (ℚ × ℚ)) (now : ℚ)
    (u' : Universe) (rest : List (ℚ × ℚ)) (hwf : u.wf) (hrand : rand_in_range rand)
    (h : u.tick k rand now = some (u', rest)) : u'.wf := by
  obtain ⟨hlen, hw, hh, hw32, hh32, hbody, happ⟩ := hwf
  unfold Universe.tick at h
  split at h
  · have hinj := Option.some.inj h
    rw [Prod.mk.injEq] at hinj
    obtain ⟨hu, -⟩ := hinj
    subst hu
    exact ⟨hlen, hw, hh, hw32, hh32, hbody, happ⟩
  · split at h
    · exact absurd h (by simp)
    · rename_i hd hhead
      split at h
      · have hinj := Option.some.inj h
        rw [Prod.mk.injEq] at hinj
        obtain ⟨hu, -⟩ := hinj
        subst hu
        exact ⟨hlen, hw, hh, hw32, hh32, hbody, happ⟩
      · rename_i nh hcand
        have hnh := candidate_head_in_bounds u hd nh hw hh hcand
        split at h
        · have hinj := Option.some.inj h
          rw [Prod.mk.injEq] at hinj
          obtain ⟨hu, -⟩ := hinj
          subst hu
          exact ⟨hlen, hw, hh, hw32, hh32, hbody, happ⟩
        · split at h
          · -- an apple exists
            rename_i a happle
            split at h
            · -- eating: respawn, mark the recorded apple, then finish
              split at h
              · exact absurd h (by simp)
              · rename_i u1 rand1 heq1
                have R := randomize_apple_wf u rand u1 rand1
                  ⟨hlen, hw, hh, hw32, hh32, hbody, happ⟩ hrand heq1
                obtain ⟨hwf1, hsnake1, hwidth1, hheight1, -, -, -, -, hsub1⟩ := R
                obtain ⟨hlen1, hw1, hh1, hw132, hh132, hbody1, happ1⟩ := hwf1
                split at h
                · exact absurd h (by simp)
                · rename_i a1 happle1
                  simp only [] at h
                  split at h
                  · exact absurd h (by simp)
                  · rename_i next1 hset1
                    have hnext1 : next1.length = u1.width * u1.height := by
                      unfold setCell at hset1
                      split at hset1
                      · rw [← Option.some.inj hset1, List.length_set, hlen,
                          hwidth1, hheight1]
                      · exact absurd hset1 (by simp)
                    exact (tick_finish_wf u1 next1 nh k rand1 now u' rest hw1 hh1
                      hw132 hh132 hbody1 happ1 hnext1
                      ⟨lt_of_lt_of_eq hnh.1 hwidth1.symm,
                        lt_of_lt_of_eq hnh.2 hheight1.symm⟩
                      (fun p hp => hrand p (hsub1 p hp)) h).1
            · -- non-eating: pop the tail, then finish
              split at h
              · exact absurd h (by simp)
              · rename_i last hlast
                simp only [] at h
                split at h
                · exact absurd h (by simp)
                · rename_i next1 hset1
                  have hnext1 : next1.length = u.width * u.height := by
                    unfold setCell at hset1
                    split at hset1
                    · rw [← Option.some.inj hset1, List.length_set, hlen]
                    · exact absurd hset1 (by simp)
                  exact (tick_finish_wf
                    { u with snake := { u.snake with body := u.snake.body.dropLast } }
                    next1 nh k rand now u' rest hw hh hw32 hh32
                    (fun p hp => hbody p (List.dropLast_subset u.snake.body hp))
                    (fun a2 ha2 => happ a2 ha2) hnext1 hnh hrand h).1
          · -- no apple yet: finish directly
            simp only [] at h
            exact (tick_finish_wf u u.cells nh k rand now u' rest hw hh hw32 hh32
              hbody happ hlen hnh hrand h).1

/-- The freshly constructed universe is well-formed. -/
theorem new_wf (fps_target now : ℚ) : (Universe.new Snake.new fps_target now).wf := by
  refine ⟨?_, ?_, ?_, ?_, ?_, ?_, ?_⟩
  · simp [Universe.new]
  · simp [Universe.new]
  · simp [Universe.new]
  · simp [Universe.new]
  · simp [Universe.new]
  · intro p hp
    simp only [Universe.new, Snake.new, List.mem_cons, List.not_mem_nil, or_false] at hp
    simp only [Universe.pos_in_bounds, Universe.new]
    rcases hp with rfl | rfl | rfl | rfl <;> exact ⟨by norm_num, by norm_num⟩
  · intro a ha
    simp [Universe.new] at ha

/-- Direction changes do not move the body. -/
theorem set_direction_name_body (s : Snake) (d : DirectionName) :
    (s.set_direction_name d).body = s.body := by
  cases d <;> rfl

/-- `on_click` preserves well-formedness. -/
theorem on_click_wf (u : Universe) (d : DirectionName) (hwf : u.wf) :
    (u.on_click d).wf := by
  obtain ⟨hlen, hw, hh, hw32, hh32, hbody, happ⟩ := hwf
  refine ⟨hlen, hw, hh, hw32, hh32, ?_, happ⟩
  intro p hp
  rw [show (u.on_click d).snake = u.snake.set_direction_name d from rfl,
    set_direction_name_body] at hp
  exact hbody p hp

/-- `toggle_topology` preserves well-formedness. -/
theorem toggle_topology_wf (u : Universe) (hwf : u.wf) : u.toggle_topology.wf := by
  obtain ⟨hlen, hw, hh, hw32, hh32, hbody, happ⟩ := hwf
  exact ⟨hlen, hw, hh, hw32, hh32, hbody, happ⟩

/-- Every reachable universe is well-formed. -/
theorem reachable_wf (u : Universe) (h : Reachable u) : u.wf := by
  induction h with
  | init fps_target now => exact new_wf fps_target now
  | tick_step v u' k rand rest now _ hrand htick ih => exact tick_wf v k rand now u' rest ih hrand htick
  | click_step v d _ ih => exact on_click_wf v d ih
  | toggle_step v _ ih => exact toggle_topology_wf v ih

/-- C10: in every state reachable from `Universe::new` with `Snake::new`
(under the environment contract that random samples lie in `[0, 1)`),
every snake segment and the apple lie strictly inside the 64 × 64 board,
and hence every flattened grid index computed from them stays below the
length of the cell buffer, which equals `width * height` — no grid access
during `tick` or `randomize_apple` can go out of bounds. -/
theorem c10_reachable_in_bounds (u : Universe) (h : Reachable u) :
    u.cells.length = u.width * u.height ∧
    (∀ p ∈ u.snake.body, p.x < u.width ∧ p.y < u.height ∧
      u.get_index p.y p.x < u.cells.length) ∧
    (∀ a, u.apple = some a → a.x < u.width ∧ a.y < u.height ∧
      u.get_index a.y a.x < u.cells.length) := by
  obtain ⟨hlen, hw, hh, hw32, hh32, hbody, happ⟩ := reachable_wf u h
  refine ⟨hlen, ?_, ?_⟩
  · intro p hp
    obtain ⟨h1, h2⟩ := hbody p hp
    exact ⟨h1, h2, get_index_lt u p h1 h2 hlen⟩
  · intro a ha
    obtain ⟨h1, h2⟩ := happ a ha
    exact ⟨h1, h2, get_index_lt u a h1 h2 hlen⟩

/-- Witness for C10 at the initial state: its buffer has `64 * 64` cells
and the head (5, 6) maps to an in-range index. -/
theorem c10_reachable_in_bounds_witness :
    U0.cells.length = U0.width * U0.height ∧
    (⟨5, 6⟩ : Position) ∈ U0.snake.body ∧
    U0.get_index 6 5 < U0.cells.length := by
  have hr : Reachable U0 := Reachable.init 60 0
  have H := c10_reachable_in_bounds U0 hr
  exact ⟨H.1, by decide, (H.2.1 ⟨5, 6⟩ (by decide)).2.2⟩
